import Mathlib

/-!
Verification of the paginated bulk-transfer tooling of this repository
(download-db.py, upload-db.py, load2.py, people.py, transcript_processing.py)
against its natural-language specification.

Each Python function that a claim touches is shallowly embedded as a Lean
definition.  Remote HTTP interaction is modelled by passing the server's
responses in as data: a drain loop consumes a list of per-request responses
in request order, so one list element corresponds to one issued request.
Python exceptions are modelled with `Except String`; Python `dict`s are
modelled as association lists that keep insertion order (as CPython dicts
do); Python `str` is modelled as Lean `String` (a packed `List Char`).
-/

/-! ## download-db.py: range-paginated drain (`fetch_table`) -/

/-- One parsed response to one range request issued by `fetch_table`
(download-db.py lines 42-64).  `okList` is a JSON-array body, `okNonList`
a valid-JSON body that is not a list (line 62), `httpError` a
`urllib.error.HTTPError` (line 50) and `urlError` a `urllib.error.URLError`
(line 55). -/
inductive RangeResp (α : Type) where
  | okList (chunk : List α)
  | okNonList
  | httpError (code : Nat) (body : String)
  | urlError (reason : String)
deriving DecidableEq

/-- True exactly for the two exception-raising responses of a page fetch. -/
def respFails {α : Type} : RangeResp α → Bool
  | .httpError _ _ => true
  | .urlError _ => true
  | _ => false

/-- The `while True` loop of `fetch_table` (download-db.py lines 42-65),
over the list of successive responses.  `P` is `PAGE_SIZE`, `acc` is `rows`.
Returns the accumulated rows together with the number of issued requests;
an HTTP/transport error becomes `Except.error` with the `RuntimeError`
message of lines 52-56.  Exhausting the modelled response list means the
model supplied too few responses and is reported as an error; every theorem
below supplies a complete response trace. -/
def fetch_table_loop {α : Type} (P : Nat) (acc : List α) :
    List (RangeResp α) → Except String (List α × Nat)
  | [] => .error "model: response trace exhausted"
  | .okList chunk :: rest =>
      if chunk.length < P then .ok (acc ++ chunk, 1)
      else
        match fetch_table_loop P (acc ++ chunk) rest with
        | .ok (rows, n) => .ok (rows, n + 1)
        | .error e => .error e
  | .okNonList :: _ => .ok (acc, 1)
  | .httpError code body :: _ =>
      .error ("Supabase API error " ++ toString code ++ ": " ++ body)
  | .urlError reason :: _ => .error ("Request failed: " ++ reason)

/-- `fetch_table` (download-db.py lines 31-67): drain one table, starting
from `start = 0` with empty `rows`. -/
def fetch_table {α : Type} (P : Nat) (resps : List (RangeResp α)) :
    Except String (List α × Nat) :=
  fetch_table_loop P [] resps

/-- Response trace of an honest range-paginated server holding `recs`:
the request with `Range: i*P-(i*P+P-1)` is answered with that slice of
`recs` in server order (spec section 6, first bullet).  `fetch_table`
requests pages at offsets `0, P, 2*P, ...`, so page `i` is
`(recs.drop (i*P)).take P`; `recs.length / P + 1` pages suffice to reach
the first short page. -/
def honestPages {α : Type} (recs : List α) (P : Nat) : List (RangeResp α) :=
  (List.range (recs.length / P + 1)).map
    (fun i => .okList ((recs.drop (i * P)).take P))

theorem honestPages_cons {α : Type} (recs : List α) (P : Nat) (hP : 0 < P)
    (h : P ≤ recs.length) :
    honestPages recs P = .okList (recs.take P) :: honestPages (recs.drop P) P := by
  unfold honestPages
  rw [List.length_drop, Nat.div_eq_sub_div hP h, List.range_succ_eq_map]
  simp only [List.map_cons, List.map_map, Nat.zero_mul, List.drop_zero]
  refine congrArg (· :: _) ?_ |>.trans (congrArg _ ?_)
  · rfl
  · apply List.map_congr_left
    intro i _
    simp only [Function.comp_apply]
    rw [List.drop_drop]
    congr 2
    simp only [Nat.succ_eq_add_one]
    ring_nf

theorem fetch_table_loop_honest {α : Type} (P : Nat) (hP : 0 < P)
    (recs acc : List α) :
    fetch_table_loop P acc (honestPages recs P) =
      .ok (acc ++ recs, recs.length / P + 1) := by
  by_cases h : recs.length < P
  · have hd : recs.length / P = 0 := Nat.div_eq_of_lt h
    have hpages : honestPages recs P = [.okList recs] := by
      unfold honestPages
      rw [hd, List.range_succ, List.range_zero]
      simp [List.take_of_length_le (Nat.le_of_lt h)]
    rw [hpages, hd]
    simp [fetch_table_loop, h]
  · push_neg at h
    rw [honestPages_cons recs P hP h]
    have hlen : (recs.take P).length = P := by
      rw [List.length_take]
      exact min_eq_left h
    have hrec := fetch_table_loop_honest P hP (recs.drop P) (acc ++ recs.take P)
    simp only [fetch_table_loop, hlen, lt_irrefl, if_false, hrec]
    rw [List.append_assoc, List.take_append_drop, List.length_drop,
      Nat.div_eq_sub_div hP h]
termination_by recs.length
decreasing_by
  simp only [List.length_drop]
  omega

/-- **C1** (counterexample).  The claim predicts `ceil(N/P)` requests for a
range drain of `N` records at page size `P`.  With `P = 2` and `N = 2` the
code issues 2 requests (the second returns the empty terminal page), while
`ceil(2/2) = (2+2-1)/2 = 1`. -/
theorem c1_request_count_counterexample :
    fetch_table 2 (honestPages ([10, 20] : List Nat) 2) = .ok ([10, 20], 2) ∧
      (2 + 2 - 1) / 2 ≠ 2 := by
  exact ⟨rfl, by decide⟩

/-- **C1** (amended).  For every page size `P > 0`, the range drain over an
honest range-paginated source holding `recs` returns exactly the records in
original server order and issues exactly `recs.length / P + 1` requests
(one more than `ceil(N/P)` when `P` divides `N`, including `N = 0`;
equal to `ceil(N/P)` otherwise — so with page size 2 and 5 records it
issues 3 requests and yields all 5 records in order). -/
theorem c1_range_drain_order_and_requests {α : Type} (P : Nat) (hP : 0 < P)
    (recs : List α) :
    fetch_table P (honestPages recs P) = .ok (recs, recs.length / P + 1) := by
  have h := fetch_table_loop_honest P hP recs []
  simpa [fetch_table] using h

/-- **C1** (witness): the spec's own scenario, page size 2 and 5 records:
3 requests, all 5 records in order. -/
theorem c1_witness :
    0 < 2 ∧
      fetch_table 2 (honestPages ([0, 1, 2, 3, 4] : List Nat) 2) =
        .ok ([0, 1, 2, 3, 4], 3) :=
  ⟨by decide, c1_range_drain_order_and_requests 2 (by decide) [0, 1, 2, 3, 4]⟩

/-- Running `fetch_table_loop` past a prefix of full (length `≥ P`) pages
accumulates their rows and adds one issued request per page, then behaves as
the loop on the remaining trace. -/
theorem fetch_loop_full_pages {α : Type} (P : Nat) (chunks : List (List α))
    (tail : List (RangeResp α)) (hch : ∀ c ∈ chunks, P ≤ c.length)
    (acc : List α) :
    fetch_table_loop P acc (chunks.map .okList ++ tail) =
      match fetch_table_loop P (acc ++ chunks.flatten) tail with
      | .ok (rows, n) => .ok (rows, n + chunks.length)
      | .error e => .error e := by
  induction chunks generalizing acc with
  | nil =>
    simp only [List.map_nil, List.nil_append, List.flatten_nil, List.append_nil,
      List.length_nil]
    cases fetch_table_loop P acc tail with
    | ok v => rfl
    | error e => rfl
  | cons c cs ih =>
    have hc : P ≤ c.length := hch c (List.mem_cons_self c cs)
    have hcs : ∀ x ∈ cs, P ≤ x.length := fun x hx => hch x (List.mem_cons_of_mem c hx)
    simp only [List.map_cons, List.cons_append, fetch_table_loop,
      Nat.not_lt.mpr hc, if_false, List.append_eq]
    rw [ih hcs (acc ++ c)]
    simp only [List.flatten_cons, List.length_cons, List.append_assoc]
    cases fetch_table_loop P (acc ++ (c ++ cs.flatten)) tail with
    | ok v =>
      cases v with
      | mk rows n => simp only []; rw [Nat.add_assoc]
    | error e => rfl

/-- The export driver `main` of download-db.py (lines 70-77): iterate over
the table names, drain each with `fetch_table`, and write the drained rows
to the table's JSON file.  `fs` is the already-written snapshot files, in
order, as pairs of file name and content; an uncaught `RuntimeError` from a
drain aborts the loop, leaving the files written so far untouched. -/
def mainExport {α : Type} (P : Nat) (src : String → List (RangeResp α)) :
    List String → List (String × List α) → List (String × List α) × Option String
  | [], fs => (fs, none)
  | t :: ts, fs =>
    match fetch_table P (src t) with
    | .ok (rows, _) => mainExport P src ts (fs ++ [(t, rows)])
    | .error e => (fs, some e)

/-- **C4**.  If, while draining table `t`, some page fetch fails with an
HTTP error or transport error (response `e` after a prefix of full pages),
then the whole drain of `t` fails — no partial record list is returned —
and the export run stops with the snapshot files of previously exported
collections (`fs`) unchanged. -/
theorem c4_drain_failure_isolated {α : Type} (P : Nat) (chunks : List (List α))
    (hch : ∀ c ∈ chunks, P ≤ c.length) (e : RangeResp α)
    (he : respFails e = true) (rest : List (RangeResp α))
    (src : String → List (RangeResp α)) (t : String) (ts : List String)
    (fs : List (String × List α)) (hsrc : src t = chunks.map .okList ++ e :: rest) :
    ∃ msg, fetch_table P (src t) = .error msg ∧
      mainExport P src (t :: ts) fs = (fs, some msg) := by
  have hfail : ∃ msg, fetch_table_loop P ([] ++ chunks.flatten) (e :: rest) =
      .error msg := by
    cases e with
    | okList chunk => simp [respFails] at he
    | okNonList => simp [respFails] at he
    | httpError code body => exact ⟨_, rfl⟩
    | urlError reason => exact ⟨_, rfl⟩
  obtain ⟨msg, hmsg⟩ := hfail
  have hdrain : fetch_table P (src t) = .error msg := by
    rw [hsrc]
    unfold fetch_table
    rw [fetch_loop_full_pages P chunks (e :: rest) hch [], hmsg]
  refine ⟨msg, hdrain, ?_⟩
  simp only [mainExport, hdrain]

/-- **C4** (witness): table "notes" has one full page then an HTTP 500;
the drain fails with the `RuntimeError` message and the already-written
snapshot `("x", [9])` is untouched. -/
theorem c4_witness :
    ∃ msg,
      fetch_table 1
          ((fun _ => [RangeResp.okList [(5 : Nat)], .httpError 500 "boom"]) "notes") =
        .error msg ∧
      mainExport 1 (fun _ => [RangeResp.okList [(5 : Nat)], .httpError 500 "boom"])
          ["notes", "attendees"] [("x", [9])] =
        ([("x", [9])], some msg) :=
  c4_drain_failure_isolated 1 [[5]] (by decide) (.httpError 500 "boom") rfl []
    (fun _ => [RangeResp.okList [(5 : Nat)], .httpError 500 "boom"])
    "notes" ["attendees"] [("x", [9])] rfl

/-- **C8**.  In the range drain, a response body that is valid JSON but not
a list (reached after a prefix of full pages) is treated as an empty,
exhausted page: no error is raised, no records are added for that page, and
the drain returns exactly the rows accumulated from the earlier pages
(download-db.py lines 58-64, `else` branch). -/
theorem c8_nonlist_exhausts {α : Type} (P : Nat) (chunks : List (List α))
    (hch : ∀ c ∈ chunks, P ≤ c.length) (rest : List (RangeResp α)) :
    fetch_table P (chunks.map .okList ++ .okNonList :: rest) =
      .ok (chunks.flatten, chunks.length + 1) := by
  unfold fetch_table
  rw [fetch_loop_full_pages P chunks (.okNonList :: rest) hch []]
  simp [fetch_table_loop, Nat.add_comm]

/-- **C8** (witness): two full pages of size one, then a non-list body. -/
theorem c8_witness :
    fetch_table 1
        ([[1], [2]].map RangeResp.okList ++ .okNonList :: [.urlError "x"]) =
      .ok (([1, 2] : List Nat), 3) :=
  c8_nonlist_exhausts 1 [[1], [2]] (by decide) [.urlError "x"]

/-! ## upload-db.py: key map, foreign-key rewrite, batched insertion -/

/-- A JSON scalar value of a record field, as used by upload-db.py. -/
inductive Val where
  | int (n : Int)
  | str (s : String)
deriving DecidableEq

/-- A record: a Python `dict` as an insertion-ordered association list. -/
def Rec : Type := List (String × Val)

instance : DecidableEq Rec := by
  unfold Rec
  infer_instance

/-- `d[k]` lookup on an `Int`-keyed Python dict. -/
def dictGet (m : List (Int × Int)) (k : Int) : Option Int :=
  match m with
  | [] => none
  | (k0, v0) :: rest => if k0 = k then some v0 else dictGet rest k

/-- `d[k] = v` on an `Int`-keyed Python dict: replace the value in place if
the key exists (keeping its position), otherwise append the new entry. -/
def dictSet (m : List (Int × Int)) (k v : Int) : List (Int × Int) :=
  match m with
  | [] => [(k, v)]
  | (k0, v0) :: rest => if k0 = k then (k0, v) :: rest else (k0, v0) :: dictSet rest k v

/-- Registering a mapping in `old_note_id_to_new`
(upload-db.py line 77: `old_note_id_to_new[row["id"]] = inserted[0]["id"]`)
is a plain dict assignment. -/
def register (m : List (Int × Int)) (old new : Int) : List (Int × Int) :=
  dictSet m old new

/-- Resolving an old id (upload-db.py line 84:
`old_note_id_to_new[row["note_id"]]`): a plain dict subscript, raising
`KeyError` when the id was never registered. -/
def resolve (m : List (Int × Int)) (old : Int) : Except String Int :=
  match dictGet m old with
  | some v => .ok v
  | none => .error ("KeyError: " ++ toString old)

theorem dictGet_dictSet_self (m : List (Int × Int)) (k v : Int) :
    dictGet (dictSet m k v) k = some v := by
  induction m with
  | nil => simp [dictGet, dictSet]
  | cons p rest ih =>
    obtain ⟨k0, v0⟩ := p
    by_cases h : k0 = k
    · simp [dictGet, dictSet, h]
    · simp [dictGet, dictSet, h, ih]

/-- **C2** (counterexample).  The claim predicts that a second `register`
of old id `1` with the different new id `202` fails with
`DuplicateKeyError`.  The code has no such error: the dict assignment
silently overwrites, and `resolve` afterwards returns `202`. -/
theorem c2_duplicate_register_counterexample :
    register (register [] 1 101) 1 202 = [(1, 202)] ∧
      resolve (register (register [] 1 101) 1 202) 1 = .ok 202 :=
  ⟨rfl, rfl⟩

/-- **C2** (amended).  After `register old new1`, `resolve old` returns
`new1`; a second `register` of the same `old` with a different `new2` does
not fail — it silently overwrites the mapping, and `resolve old` then
returns `new2`. -/
theorem c2_register_overwrite_resolve (m : List (Int × Int)) (old n1 n2 : Int) :
    resolve (register m old n1) old = .ok n1 ∧
      resolve (register (register m old n1) old n2) old = .ok n2 := by
  constructor
  · unfold resolve register
    rw [dictGet_dictSet_self]
  · unfold resolve register
    rw [dictGet_dictSet_self]

/-- Field lookup `r.get(k)` on a record. -/
def getField (r : Rec) (k : String) : Option Val :=
  match r with
  | [] => none
  | (k0, v0) :: rest => if k0 = k then some v0 else getField rest k

/-- Field assignment `r[k] = v` on a record (replace in place or append). -/
def setField (r : Rec) (k : String) (v : Val) : Rec :=
  match r with
  | [] => [(k, v)]
  | (k0, v0) :: rest => if k0 = k then (k0, v) :: rest else (k0, v0) :: setField rest k v

/-- `r.pop(k, None)`: remove the field if present. -/
def popField (r : Rec) (k : String) : Rec :=
  r.filter (fun p => p.1 ≠ k)

/-- One iteration of the attendee rewrite loop (upload-db.py lines 83-85):
`row["note_id"] = old_note_id_to_new[row["note_id"]]; row.pop("id", None)`.
A missing `note_id` field, a non-integer `note_id`, or a `note_id` absent
from the notes key map raises `KeyError`. -/
def rewrite_attendee (m : List (Int × Int)) (row : Rec) : Except String Rec :=
  match getField row "note_id" with
  | some (.int old) =>
    match dictGet m old with
    | some nw => .ok (popField (setField row "note_id" (.int nw)) "id")
    | none => .error ("KeyError: " ++ toString old)
  | _ => .error "KeyError: note_id"

/-- The whole `for row in attendees` rewrite loop (upload-db.py lines
83-85): rewrites rows in order; the first `KeyError` propagates and aborts
the loop (there is no try/except around it). -/
def rewriteAll (m : List (Int × Int)) : List Rec → Except String (List Rec)
  | [] => .ok []
  | r :: rest =>
    match rewrite_attendee m r with
    | .ok r2 =>
      match rewriteAll m rest with
      | .ok rs => .ok (r2 :: rs)
      | .error e => .error e
    | .error e => .error e

/-- Slicing `l[i : i + bs]` for `i in range(0, len(l), bs)` (upload-db.py
lines 86-88 and 94-96). -/
def batches {α : Type} (bs : Nat) : List α → List (List α)
  | [] => []
  | x :: rest =>
    if _h : bs = 0 then []
    else (x :: rest).take bs :: batches bs ((x :: rest).drop bs)
termination_by l => l.length
decreasing_by
  simp only [List.length_drop, List.length_cons]
  omega

/-- `post_rows(table, rows)` (upload-db.py lines 28-58) from the point of
view of the destination table: the remote write API appends the posted rows
to the table (spec section 6, remote write API); with empty `rows` the
function returns without issuing a request (line 36). -/
def post_rows_dest {α : Type} (dest rows : List α) : List α :=
  match rows with
  | [] => dest
  | _ :: _ => dest ++ rows

theorem post_rows_dest_eq {α : Type} (dest rows : List α) :
    post_rows_dest dest rows = dest ++ rows := by
  cases rows with
  | nil => simp [post_rows_dest]
  | cons x r => rfl

theorem batches_flatten {α : Type} (bs : Nat) (hbs : 0 < bs) (l : List α) :
    (batches bs l).flatten = l := by
  cases l with
  | nil => simp [batches]
  | cons x rest =>
    rw [batches]
    simp only [Nat.pos_iff_ne_zero.mp hbs, dif_neg, List.flatten_cons,
      not_false_iff]
    rw [batches_flatten bs hbs ((x :: rest).drop bs), List.take_append_drop]
termination_by l.length
decreasing_by
  simp only [List.length_drop, List.length_cons]
  omega

theorem foldl_post_rows {α : Type} (bs : List (List α)) (dest : List α) :
    bs.foldl post_rows_dest dest = dest ++ bs.flatten := by
  induction bs generalizing dest with
  | nil => simp
  | cons b rest ih =>
    simp only [List.foldl_cons, List.flatten_cons, post_rows_dest_eq, ih,
      List.append_assoc]

/-- The attendees import step (upload-db.py lines 81-89): if the snapshot
is non-empty, rewrite every row's `note_id` through the notes key map and
drop its `id`, then POST the rewritten rows in batches of 500.  `dest` is
the destination `attendees` table.  An uncaught `KeyError` from the rewrite
loop aborts the whole step (and with it the run) before any POST. -/
def importAttendees (m : List (Int × Int)) (dest : List Rec)
    (attendees : List Rec) : Except String (List Rec) :=
  match attendees with
  | [] => .ok dest
  | _ :: _ =>
    match rewriteAll m attendees with
    | .ok rs => .ok ((batches 500 rs).foldl post_rows_dest dest)
    | .error e => .error e

/-- **C3** (counterexample).  Notes key map `{1 ↦ 101}`; first attendee
references the unregistered note id `2`, second references the registered
id `1`.  The claim predicts the first record is skipped and processing
continues (the second is inserted); the code instead raises `KeyError: 2`,
aborting the entire import with nothing inserted. -/
theorem c3_unresolved_aborts_counterexample :
    importAttendees [(1, 101)] []
        [[("note_id", Val.int 2)], [("note_id", Val.int 1)]] =
      .error "KeyError: 2" :=
  rfl

/-- **C3** (amended).  During the attendees import, the first record whose
foreign-key value has no entry in the notes key map raises an uncaught
`KeyError` that aborts the whole run at that record: the remaining records
are not processed and no attendee row is inserted at all (the rewrite loop
precedes every POST). -/
theorem c3_unresolved_fk_aborts_run (m : List (Int × Int)) (dest : List Rec)
    (good : List Rec) (bad : Rec) (rest : List Rec)
    (hgood : ∀ r ∈ good, (rewrite_attendee m r).isOk = true)
    (hbad : (rewrite_attendee m bad).isOk = false) :
    ∃ msg, importAttendees m dest (good ++ bad :: rest) = .error msg := by
  have hfail : ∃ msg, rewriteAll m (good ++ bad :: rest) = .error msg := by
    induction good with
    | nil =>
      simp only [List.nil_append, rewriteAll]
      cases hb : rewrite_attendee m bad with
      | ok r2 => rw [hb] at hbad; simp [Except.isOk, Except.toBool] at hbad
      | error e => exact ⟨e, rfl⟩
    | cons g gs ih =>
      have hg := hgood g (List.mem_cons_self g gs)
      obtain ⟨msg, hmsg⟩ := ih fun r hr => hgood r (List.mem_cons_of_mem g hr)
      cases hg2 : rewrite_attendee m g with
      | ok g2 =>
        refine ⟨msg, ?_⟩
        simp only [List.cons_append, rewriteAll, hg2, hmsg, List.append_eq]
      | error e => rw [hg2] at hg; simp [Except.isOk, Except.toBool] at hg
  obtain ⟨msg, hmsg⟩ := hfail
  refine ⟨msg, ?_⟩
  cases hg : good ++ bad :: rest with
  | nil => exact absurd hg (by simp)
  | cons a rest2 =>
    rw [hg] at hmsg
    simp only [importAttendees, hmsg]

/-- **C3** (witness): same data as the counterexample but with the
resolvable record first; the run still aborts with a `KeyError`. -/
theorem c3_witness :
    ∃ msg,
      importAttendees [(1, 101)] []
          ([[("note_id", Val.int 1)]] ++ [("note_id", Val.int 2)] :: []) =
        .error msg :=
  c3_unresolved_fk_aborts_run [(1, 101)] [] [[("note_id", Val.int 1)]]
    [("note_id", Val.int 2)] [] (by decide) (by decide)

/-- The profiles import step (upload-db.py lines 92-97): a `pass-through`
collection.  Records are inserted as-is (original `id` kept) in batches of
500; an empty snapshot inserts nothing. -/
def importProfiles {α : Type} (dest profiles : List α) : List α :=
  match profiles with
  | [] => dest
  | _ :: _ => (batches 500 profiles).foldl post_rows_dest dest

theorem importProfiles_eq {α : Type} (dest profiles : List α) :
    importProfiles dest profiles = dest ++ profiles := by
  cases profiles with
  | nil => simp [importProfiles]
  | cons x rest =>
    unfold importProfiles
    rw [foldl_post_rows, batches_flatten 500 (by decide)]

/-- **C6**.  Round-trip: draining a collection from an honest
range-paginated source (export; the JSON snapshot write/read is the
identity on the record list) and then importing the snapshot with the
pass-through strategy into an empty destination yields a destination equal
to the original collection — as the very same list, hence equal as a set of
records with every record (in particular its `id` field) preserved
unchanged. -/
theorem c6_roundtrip_passthrough {α : Type} (P : Nat) (hP : 0 < P)
    (recs : List α) :
    (∃ n, fetch_table P (honestPages recs P) = .ok (recs, n)) ∧
      importProfiles [] recs = recs := by
  constructor
  · refine ⟨recs.length / P + 1, ?_⟩
    have h := fetch_table_loop_honest P hP recs []
    simpa [fetch_table] using h
  · rw [importProfiles_eq]
    simp

/-- **C6** (witness): three records, page size 2. -/
theorem c6_witness :
    0 < 2 ∧
      ((∃ n, fetch_table 2 (honestPages ([7, 8, 9] : List Nat) 2) = .ok ([7, 8, 9], n)) ∧
        importProfiles [] ([7, 8, 9] : List Nat) = [7, 8, 9]) :=
  ⟨by decide, c6_roundtrip_passthrough 2 (by decide) [7, 8, 9]⟩

/-! ## get_api_key (download-db.py lines 18-28, upload-db.py lines 15-25) -/

/-- Python's `a or b` for an optional environment variable value `a`:
`None` and `""` are falsy, any other string wins. -/
def envOr (v : Option String) (d : String) : String :=
  match v with
  | none => d
  | some s => if s = "" then d else s

/-- Drop whitespace from both ends of a character list. -/
def stripList (l : List Char) : List Char :=
  ((l.dropWhile Char.isWhitespace).reverse.dropWhile Char.isWhitespace).reverse

/-- Python `str.strip()`: drop whitespace from both ends. -/
def pyStrip (s : String) : String :=
  ⟨stripList s.data⟩

/-- The `ValueError` message raised when no usable key is found. -/
def cfgMsg : String :=
  "Set SUPABASE_SERVICE_ROLE_KEY or SUPABASE_ANON_KEY in the environment"

/-- `get_api_key()`: `key = (env SERVICE_ROLE or env ANON or "").strip()`;
raise `ValueError` if the stripped key is empty, else return it.  `svc` and
`anon` are the two environment variables (`none` = unset). -/
def get_api_key (svc anon : Option String) : Except String String :=
  let key := pyStrip (envOr svc (envOr anon ""))
  if key = "" then .error cfgMsg else .ok key

/-- The export driver including startup (download-db.py lines 70-77):
`get_api_key()` runs before any table is fetched, so a configuration error
terminates the run with no file written and no request issued. -/
def download_main {α : Type} (svc anon : Option String) (P : Nat)
    (src : String → List (RangeResp α)) (tables : List String) :
    List (String × List α) × Option String :=
  match get_api_key svc anon with
  | .error e => ([], some e)
  | .ok _ => mainExport P src tables []

/-- **C7** (counterexample).  `SUPABASE_SERVICE_ROLE_KEY` is set to the
non-empty whitespace string `" "` while `SUPABASE_ANON_KEY` holds the
non-empty key `"realkey"`.  The claim says the first non-empty variable
wins and no configuration error is possible when a named variable yields a
non-empty key; the code instead selects `" "` (truthy in Python), strips it
to `""`, and raises the configuration error, never looking at the valid
second key. -/
theorem c7_whitespace_key_counterexample :
    get_api_key (some " ") (some "realkey") = .error cfgMsg := rfl

/-- **C7** (amended).  The candidate key is the first variable value that
is set and non-empty as a raw string (`SUPABASE_SERVICE_ROLE_KEY` first,
then `SUPABASE_ANON_KEY`); the key actually used is that candidate with
surrounding whitespace stripped.  A configuration error is raised at
startup — before any request is issued or file written — exactly when the
selected candidate (or the empty default, if neither is set and non-empty)
strips to the empty string; in particular a whitespace-only first variable
raises even when the second holds a valid key. -/
theorem c7_api_key_selection (svc anon : Option String) :
    (∀ v, svc = some v → v ≠ "" →
      get_api_key svc anon =
        (if pyStrip v = "" then .error cfgMsg else .ok (pyStrip v))) ∧
    ((svc = none ∨ svc = some "") → ∀ w, anon = some w → w ≠ "" →
      get_api_key svc anon =
        (if pyStrip w = "" then .error cfgMsg else .ok (pyStrip w))) ∧
    ((svc = none ∨ svc = some "") → (anon = none ∨ anon = some "") →
      get_api_key svc anon = .error cfgMsg) ∧
    (∀ (P : Nat) (src : String → List (RangeResp Nat)) (tables : List String),
      get_api_key svc anon = .error cfgMsg →
      download_main svc anon P src tables = ([], some cfgMsg)) := by
  refine ⟨?_, ?_, ?_, ?_⟩
  · intro v hv hne
    subst hv
    simp [get_api_key, envOr, hne]
  · rintro (h | h) w hw hne <;> subst h <;> subst hw <;>
      simp [get_api_key, envOr, hne]
  · rintro (h | h) (h2 | h2) <;> subst h <;> subst h2 <;> rfl
  · intro P src tables herr
    simp [download_main, herr]

/-- **C7** (witness): a padded service key is selected and stripped. -/
theorem c7_witness :
    get_api_key (some " k1 ") (some "other") =
      (if pyStrip " k1 " = "" then .error cfgMsg else .ok (pyStrip " k1 ")) :=
  (c7_api_key_selection (some " k1 ") (some "other")).1 " k1 " rfl (by decide)

/-! ## load2.py `get_all_meetings` and people.py `get_contacts_for_owner`:
cursor- and after-token-paginated drains -/

/-- One parsed successful response of the cursor-paginated meetings API
(load2.py lines 57-61): `meetings = data.get("meetings") or []` and
`next_cursor = (data.get("pagination") or {}).get("next_cursor")`. -/
structure CursorPage (α : Type) where
  meetings : List α
  next_cursor : Option String

/-- One parsed successful response of the after-paginated search API
(people.py lines 60-67): `results = result.get("results", [])`;
`next_after = some a` exactly when `result.get("paging", {}).get("next")`
is truthy and contains the key `"after"` with string value `a`. -/
structure AfterPage (β : Type) where
  results : List β
  next_after : Option String

/-- Python truthiness test `not cursor` on an optional token:
`None` and `""` are falsy. -/
def tokenFalsy : Option String → Bool
  | none => true
  | some s => decide (s = "")

/-- The query parameters sent for a given cursor value (load2.py lines
42-44): the `cursor` parameter is included only when the value is truthy. -/
def reqOf (cursor : Option String) : Option String :=
  if tokenFalsy cursor then none else cursor

/-- The `while True` loop of `get_all_meetings` (load2.py lines 41-64) over
the successive responses.  Each consumed page appends one issued request
(the cursor parameter it was requested with) to `reqs`; the loop stops when
`not next_cursor or not meetings` (line 62).  The final `Bool` is `true`
when the loop broke by itself, `false` when the modelled response trace ran
out first. -/
def get_all_meetings_loop {α : Type} :
    List (CursorPage α) → Option String → List α → List (Option String) →
      List α × List (Option String) × Bool
  | [], _, acc, reqs => (acc, reqs, false)
  | p :: rest, cursor, acc, reqs =>
    if tokenFalsy p.next_cursor || p.meetings.isEmpty then
      (acc ++ p.meetings, reqs ++ [reqOf cursor], true)
    else
      get_all_meetings_loop rest p.next_cursor (acc ++ p.meetings)
        (reqs ++ [reqOf cursor])

/-- `get_all_meetings` (load2.py lines 18-66): start with `cursor = None`
and empty accumulators. -/
def get_all_meetings {α : Type} (pages : List (CursorPage α)) :
    List α × List (Option String) × Bool :=
  get_all_meetings_loop pages none [] []

/-- The `while True` loop of `get_contacts_for_owner` (people.py lines
22-67).  Each consumed page appends the issued request's `after` parameter
(`none` = parameter absent, people.py lines 37-38); the loop stops only
when `not next_info or "after" not in next_info` (line 65) — the
emptiness of `results` is never tested. -/
def get_contacts_loop {β : Type} :
    List (AfterPage β) → Option String → List β → List (Option String) →
      List β × List (Option String) × Bool
  | [], _, acc, reqs => (acc, reqs, false)
  | p :: rest, after, acc, reqs =>
    match p.next_after with
    | none => (acc ++ p.results, reqs ++ [after], true)
    | some a => get_contacts_loop rest (some a) (acc ++ p.results) (reqs ++ [after])

/-- The pagination part of `get_contacts_for_owner` (people.py lines
19-67): start with `after = None` and empty accumulators. -/
def get_contacts_pages {β : Type} (pages : List (AfterPage β)) :
    List β × List (Option String) × Bool :=
  get_contacts_loop pages none [] []

/-- All records of a cursor-paginated trace, in server delivery order. -/
def meetingsOf {α : Type} (pages : List (CursorPage α)) : List α :=
  (pages.map CursorPage.meetings).flatten

/-- All records of an after-paginated trace, in server delivery order. -/
def resultsOf {β : Type} (pages : List (AfterPage β)) : List β :=
  (pages.map AfterPage.results).flatten

/-- A finite, well-formed response chain for the cursor drain: every page
before the last passes the continue test of load2.py line 62 and the last
page fails it. -/
inductive CursorChain (α : Type) : List (CursorPage α) → Prop
  | last (p : CursorPage α)
      (h : (tokenFalsy p.next_cursor || p.meetings.isEmpty) = true) :
      CursorChain α [p]
  | cons (p : CursorPage α) (rest : List (CursorPage α))
      (h1 : (tokenFalsy p.next_cursor || p.meetings.isEmpty) = false)
      (h : CursorChain α rest) : CursorChain α (p :: rest)

/-- A finite, well-formed response chain for the after drain: every page
before the last carries a `paging.next.after` token and the last does not. -/
inductive AfterChain (β : Type) : List (AfterPage β) → Prop
  | last (p : AfterPage β) (h : p.next_after = none) : AfterChain β [p]
  | cons (p : AfterPage β) (a : String) (rest : List (AfterPage β))
      (h1 : p.next_after = some a) (h : AfterChain β rest) :
      AfterChain β (p :: rest)

theorem cursorChain_ne_nil {α : Type} {pages : List (CursorPage α)}
    (h : CursorChain α pages) : pages ≠ [] := by
  cases h <;> exact List.cons_ne_nil _ _

theorem afterChain_ne_nil {β : Type} {pages : List (AfterPage β)}
    (h : AfterChain β pages) : pages ≠ [] := by
  cases h <;> exact List.cons_ne_nil _ _

theorem cursorChain_dropLast {α : Type} {pages : List (CursorPage α)}
    (h : CursorChain α pages) :
    ∀ p ∈ pages.dropLast, (tokenFalsy p.next_cursor || p.meetings.isEmpty) = false := by
  induction h with
  | last p h => simp
  | cons p rest h1 hrest ih =>
    rw [List.dropLast_cons_of_ne_nil (cursorChain_ne_nil hrest)]
    intro q hq
    rcases List.mem_cons.mp hq with hq | hq
    · rw [hq]; exact h1
    · exact ih q hq

theorem afterChain_dropLast {β : Type} {pages : List (AfterPage β)}
    (h : AfterChain β pages) :
    ∀ p ∈ pages.dropLast, p.next_after ≠ none := by
  induction h with
  | last p h => simp
  | cons p a rest h1 hrest ih =>
    rw [List.dropLast_cons_of_ne_nil (afterChain_ne_nil hrest)]
    intro q hq
    rcases List.mem_cons.mp hq with hq | hq
    · rw [hq, h1]; exact Option.some_ne_none a
    · exact ih q hq

theorem get_all_meetings_loop_chain {α : Type} {pages : List (CursorPage α)}
    (hc : CursorChain α pages) :
    ∀ (cur : Option String) (acc : List α) (reqs : List (Option String)),
      get_all_meetings_loop pages cur acc reqs =
        (acc ++ meetingsOf pages,
          reqs ++ reqOf cur :: pages.dropLast.map (fun p => reqOf p.next_cursor),
          true) := by
  induction hc with
  | last p h =>
    intro cur acc reqs
    simp [get_all_meetings_loop, h, meetingsOf]
  | cons p rest h1 hrest ih =>
    intro cur acc reqs
    rw [get_all_meetings_loop, h1]
    simp only [Bool.false_eq_true, if_false]
    rw [ih p.next_cursor (acc ++ p.meetings) (reqs ++ [reqOf cur])]
    rw [List.dropLast_cons_of_ne_nil (cursorChain_ne_nil hrest)]
    simp [meetingsOf, List.append_assoc]

theorem get_contacts_loop_chain {β : Type} {pages : List (AfterPage β)}
    (ha : AfterChain β pages) :
    ∀ (cur : Option String) (acc : List β) (reqs : List (Option String)),
      get_contacts_loop pages cur acc reqs =
        (acc ++ resultsOf pages,
          reqs ++ cur :: pages.dropLast.map (fun p => p.next_after),
          true) := by
  induction ha with
  | last p h =>
    intro cur acc reqs
    rw [get_contacts_loop, h]
    simp [resultsOf]
  | cons p a rest h1 hrest ih =>
    intro cur acc reqs
    have hstep : get_contacts_loop (p :: rest) cur acc reqs =
        get_contacts_loop rest (some a) (acc ++ p.results) (reqs ++ [cur]) := by
      rw [get_contacts_loop, h1]
    rw [hstep, ih (some a) (acc ++ p.results) (reqs ++ [cur])]
    rw [List.dropLast_cons_of_ne_nil (afterChain_ne_nil hrest)]
    simp [resultsOf, List.append_assoc, h1]

/-- **C5** (counterexample).  An after-paginated source whose first page is
empty but carries `paging.next.after = "t"`.  The claim says the drain
stops when the returned page is empty, i.e. after one request; the code
tests only the `after` token (people.py line 65), so it issues a second
request (requests `[none, some "t"]`). -/
theorem c5_after_empty_page_counterexample :
    get_contacts_pages ([⟨[], some "t"⟩, ⟨[], none⟩] : List (AfterPage Nat)) =
      ([], [none, some "t"], true) := rfl

/-- **C5** (amended).  For finite chains both drains terminate, consuming
exactly one request per chain page.  The cursor drain stops exactly when
`next_cursor` is absent/empty or the returned page is empty; the after
drain stops exactly when the paging envelope carries no `after` token —
an empty page or an empty-string token does not stop it, so it can issue
more than one request after the last non-empty page.  Each drain returns
all records in server delivery order, its request list is the initial
token-less request followed by each page's continuation token once, and —
when the server's tokens are pairwise distinct — no consumed token is ever
sent twice. -/
theorem c5_chain_termination {α β : Type} (cpages : List (CursorPage α))
    (apages : List (AfterPage β)) (hc : CursorChain α cpages)
    (ha : AfterChain β apages) :
    (get_all_meetings cpages =
      (meetingsOf cpages,
        none :: cpages.dropLast.map (fun p => reqOf p.next_cursor), true)) ∧
    (get_contacts_pages apages =
      (resultsOf apages,
        none :: apages.dropLast.map (fun p => p.next_after), true)) ∧
    ((cpages.dropLast.map (fun p => reqOf p.next_cursor)).Nodup →
      (none :: cpages.dropLast.map (fun p => reqOf p.next_cursor)).Nodup) ∧
    ((apages.dropLast.map (fun p => p.next_after)).Nodup →
      (none :: apages.dropLast.map (fun p => p.next_after)).Nodup) := by
  refine ⟨?_, ?_, ?_, ?_⟩
  · have h := get_all_meetings_loop_chain hc none [] []
    simpa [get_all_meetings, reqOf, tokenFalsy] using h
  · have h := get_contacts_loop_chain ha none [] []
    simpa [get_contacts_pages] using h
  · intro hnd
    refine List.nodup_cons.mpr ⟨?_, hnd⟩
    intro hmem
    obtain ⟨p, hp, hpe⟩ := List.mem_map.mp hmem
    have hfalse := cursorChain_dropLast hc p hp
    have htok : tokenFalsy p.next_cursor = false :=
      (Bool.or_eq_false_iff.mp hfalse).1
    rw [reqOf, htok] at hpe
    simp only [Bool.false_eq_true, if_false] at hpe
    rw [hpe] at htok
    simp [tokenFalsy] at htok
  · intro hnd
    refine List.nodup_cons.mpr ⟨?_, hnd⟩
    intro hmem
    obtain ⟨p, hp, hpe⟩ := List.mem_map.mp hmem
    exact afterChain_dropLast ha p hp hpe

/-- **C5** (witness): a two-page cursor chain and a two-page after chain. -/
theorem c5_witness :
    (get_all_meetings [⟨[1], some "a"⟩, (⟨[2], none⟩ : CursorPage Nat)] =
      ([1, 2], [none, some "a"], true)) ∧
    (get_contacts_pages [⟨[5], some "x"⟩, (⟨[6], none⟩ : AfterPage Nat)] =
      ([5, 6], [none, some "x"], true)) ∧
    (([some "a"] : List (Option String)).Nodup →
      ([none, some "a"] : List (Option String)).Nodup) ∧
    (([some "x"] : List (Option String)).Nodup →
      ([none, some "x"] : List (Option String)).Nodup) :=
  c5_chain_termination [⟨[1], some "a"⟩, ⟨[2], none⟩]
    [⟨[5], some "x"⟩, ⟨[6], none⟩]
    (.cons _ _ (by decide) (.last _ (by decide)))
    (.cons _ "x" _ rfl (.last _ rfl))

/-! ## transcript_processing.py: `process_transcript` -/

/-- One sentence item.  Only the `speaker` and `transcript` fields are read
by `process_transcript`; `none` models an absent key (the code reads them
with `item.get`). -/
structure TItem where
  speaker : Option String
  transcript : Option String

/-- `item.get("speaker") or "Unknown speaker"` (transcript_processing.py
line 30): a missing or falsy (empty) speaker becomes `"Unknown speaker"`. -/
def effSpeaker (it : TItem) : String :=
  match it.speaker with
  | none => "Unknown speaker"
  | some s => if s = "" then "Unknown speaker" else s

/-- `item.get("transcript", "")` (line 31). -/
def effText (it : TItem) : String :=
  match it.transcript with
  | none => ""
  | some t => t

/-- Python `" ".join(chunks)`. -/
def joinSpace : List String → String
  | [] => ""
  | [s] => s
  | s :: rest => s ++ " " ++ joinSpace rest

/-- Python `"\n".join(lines)`. -/
def joinNewline : List String → String
  | [] => ""
  | [s] => s
  | s :: rest => s ++ "\n" ++ joinNewline rest

/-- `f"{speaker}: {joined}"` (lines 44 and 53). -/
def renderLine (sp : String) (chunks : List String) : String :=
  sp ++ ": " ++ joinSpace chunks

/-- The `for item in sentences` loop plus final flush of
`process_transcript` (transcript_processing.py lines 25-53), with state
`current_speaker` (`cur`), `current_chunks` (`chunks`) and `lines`. -/
def process_loop : List TItem → Option String → List String → List String → List String
  | [], cur, chunks, lines =>
    match cur with
    | none => lines
    | some sp =>
      match chunks with
      | [] => lines
      | _ :: _ => lines ++ [renderLine sp chunks]
  | it :: rest, cur, chunks, lines =>
    if effText it = "" then process_loop rest cur chunks lines
    else if some (effSpeaker it) = cur then
      process_loop rest cur (chunks ++ [effText it]) lines
    else
      match cur with
      | none => process_loop rest (some (effSpeaker it)) [effText it] lines
      | some c =>
        process_loop rest (some (effSpeaker it)) [effText it]
          (lines ++ [renderLine c chunks])

/-- `process_transcript(sentences)` (transcript_processing.py lines 4-56).
The returned dict `{"transcript": s}` is modelled by returning `s`. -/
def process_transcript (sentences : List TItem) : String :=
  match sentences with
  | [] => ""
  | _ :: _ => joinNewline (process_loop sentences none [] [])

/-- Spec side, step 1: discard every item whose transcript text is empty or
missing, keeping each survivor's effective speaker and text. -/
def keptPairs (sentences : List TItem) : List (String × String) :=
  (sentences.filter (fun it => decide (effText it ≠ ""))).map
    (fun it => (effSpeaker it, effText it))

/-- Prefix a partial run onto a list of runs, merging with the first run
when the speakers agree. -/
def prependRun (sp : String) (chunks : List String) :
    List (String × List String) → List (String × List String)
  | [] => [(sp, chunks)]
  | (s2, ts) :: more =>
    if sp = s2 then (sp, chunks ++ ts) :: more
    else (sp, chunks) :: (s2, ts) :: more

/-- Spec side, step 2: group a pair list into maximal runs of consecutive
equal speakers. -/
def groupRuns : List (String × String) → List (String × List String)
  | [] => []
  | (s, t) :: rest => prependRun s [t] (groupRuns rest)

/-- Spec side, steps 3-4: one line per run, lines joined by newlines. -/
def spec_transcript (sentences : List TItem) : String :=
  joinNewline ((groupRuns (keptPairs sentences)).map (fun r => renderLine r.1 r.2))

/-- `process_loop` restricted to the surviving (speaker, text) pairs:
the empty-text skip of line 34 disappears. -/
def pairs_loop : List (String × String) → Option String → List String → List String → List String
  | [], cur, chunks, lines =>
    match cur with
    | none => lines
    | some sp =>
      match chunks with
      | [] => lines
      | _ :: _ => lines ++ [renderLine sp chunks]
  | (s, t) :: rest, cur, chunks, lines =>
    if some s = cur then pairs_loop rest cur (chunks ++ [t]) lines
    else
      match cur with
      | none => pairs_loop rest (some s) [t] lines
      | some c => pairs_loop rest (some s) [t] (lines ++ [renderLine c chunks])

theorem pairs_loop_cons (s t : String) (rest : List (String × String))
    (cur : Option String) (chunks lines : List String) :
    pairs_loop ((s, t) :: rest) cur chunks lines =
      if some s = cur then pairs_loop rest cur (chunks ++ [t]) lines
      else
        match cur with
        | none => pairs_loop rest (some s) [t] lines
        | some c => pairs_loop rest (some s) [t] (lines ++ [renderLine c chunks]) := rfl

theorem process_loop_cons (it : TItem) (rest : List TItem) (cur : Option String)
    (chunks lines : List String) :
    process_loop (it :: rest) cur chunks lines =
      if effText it = "" then process_loop rest cur chunks lines
      else if some (effSpeaker it) = cur then
        process_loop rest cur (chunks ++ [effText it]) lines
      else
        match cur with
        | none => process_loop rest (some (effSpeaker it)) [effText it] lines
        | some c =>
          process_loop rest (some (effSpeaker it)) [effText it]
            (lines ++ [renderLine c chunks]) := rfl

theorem process_loop_eq_pairs :
    ∀ (items : List TItem) (cur : Option String) (chunks lines : List String),
      process_loop items cur chunks lines = pairs_loop (keptPairs items) cur chunks lines
  | [], cur, chunks, lines => rfl
  | it :: rest, cur, chunks, lines => by
    by_cases h : effText it = ""
    · have hk : keptPairs (it :: rest) = keptPairs rest := by
        simp [keptPairs, h]
      rw [hk, process_loop_cons, if_pos h]
      exact process_loop_eq_pairs rest cur chunks lines
    · have hk : keptPairs (it :: rest) = (effSpeaker it, effText it) :: keptPairs rest := by
        simp [keptPairs, h]
      rw [hk, process_loop_cons, if_neg h, pairs_loop_cons]
      by_cases h2 : some (effSpeaker it) = cur
      · rw [if_pos h2, if_pos h2]
        exact process_loop_eq_pairs rest cur (chunks ++ [effText it]) lines
      · rw [if_neg h2, if_neg h2]
        cases cur with
        | none => exact process_loop_eq_pairs rest (some (effSpeaker it)) [effText it] lines
        | some c =>
          exact process_loop_eq_pairs rest (some (effSpeaker it)) [effText it]
            (lines ++ [renderLine c chunks])

theorem prependRun_snoc (sp : String) (chunks : List String) (t : String)
    (runs : List (String × List String)) :
    prependRun sp (chunks ++ [t]) runs = prependRun sp chunks (prependRun sp [t] runs) := by
  cases runs with
  | nil => simp [prependRun]
  | cons r more =>
    obtain ⟨s2, ts⟩ := r
    by_cases h : sp = s2
    · simp [prependRun, h]
    · simp [prependRun, h]

theorem prependRun_head (s : String) (ts : List String)
    (runs : List (String × List String)) :
    ∃ ts2 more2, prependRun s ts runs = (s, ts2) :: more2 := by
  cases runs with
  | nil => exact ⟨ts, [], rfl⟩
  | cons r more =>
    obtain ⟨s2, ts0⟩ := r
    by_cases h : s = s2
    · exact ⟨ts ++ ts0, more, by simp [prependRun, h]⟩
    · exact ⟨ts, (s2, ts0) :: more, by simp [prependRun, h]⟩

theorem prependRun_ne (sp : String) (chunks : List String) (s : String)
    (ts : List String) (runs : List (String × List String)) (h : sp ≠ s) :
    prependRun sp chunks (prependRun s ts runs) = (sp, chunks) :: prependRun s ts runs := by
  obtain ⟨ts2, more2, heq⟩ := prependRun_head s ts runs
  rw [heq]
  simp [prependRun, h]

theorem pairs_loop_some :
    ∀ (pairs : List (String × String)) (sp ch : String) (chunks lines : List String),
      pairs_loop pairs (some sp) (ch :: chunks) lines =
        lines ++ (prependRun sp (ch :: chunks) (groupRuns pairs)).map
          (fun r => renderLine r.1 r.2)
  | [], sp, ch, chunks, lines => rfl
  | (s, t) :: rest, sp, ch, chunks, lines => by
    rw [pairs_loop_cons]
    by_cases h : s = sp
    · subst h
      rw [if_pos rfl]
      have hrec := pairs_loop_some rest s ch (chunks ++ [t]) lines
      have hsh : (ch :: chunks) ++ [t] = ch :: (chunks ++ [t]) := rfl
      rw [hsh.symm] at hrec
      rw [hrec, prependRun_snoc]
      rfl
    · have hne : some s ≠ some sp := fun hx => h (Option.some.inj hx)
      rw [if_neg hne]
      show pairs_loop rest (some s) [t] (lines ++ [renderLine sp (ch :: chunks)]) = _
      have hrec := pairs_loop_some rest s t [] (lines ++ [renderLine sp (ch :: chunks)])
      rw [hrec]
      have hsp : sp ≠ s := fun hx => h hx.symm
      rw [groupRuns, prependRun_ne sp (ch :: chunks) s [t] (groupRuns rest) hsp]
      simp

theorem pairs_loop_start :
    ∀ pairs : List (String × String),
      pairs_loop pairs none [] [] =
        (groupRuns pairs).map (fun r => renderLine r.1 r.2)
  | [] => rfl
  | (s, t) :: rest => by
    rw [pairs_loop_cons, if_neg (by simp)]
    rw [pairs_loop_some rest s t [] []]
    rw [groupRuns]
    rfl

/-- **C9**.  `process_transcript` equals the spec pipeline: drop every
empty-or-missing-text item, group the survivors into maximal runs of
consecutive equal effective speakers (missing/falsy speaker replaced by
`"Unknown speaker"`), render one `"speaker: texts joined by spaces"` line
per run, join with newlines — consequently the kept pairs of a list with
an all-empty-text segment spliced in are those of the list without it (so
two runs of one speaker separated only by empty-text items merge), and an
input whose texts are all empty or missing yields the empty transcript. -/
theorem c9_process_transcript_spec :
    (∀ sentences, process_transcript sentences = spec_transcript sentences) ∧
    (∀ (a mid b : List TItem), (∀ it ∈ mid, effText it = "") →
      keptPairs (a ++ mid ++ b) = keptPairs (a ++ b)) ∧
    (∀ sentences, (∀ it ∈ sentences, effText it = "") →
      process_transcript sentences = "") := by
  have hmain : ∀ sentences, process_transcript sentences = spec_transcript sentences := by
    intro sentences
    cases sentences with
    | nil => rfl
    | cons it rest =>
      unfold process_transcript spec_transcript
      rw [process_loop_eq_pairs, pairs_loop_start]
  refine ⟨hmain, ?_, ?_⟩
  · intro a mid b hmid
    have hfil : mid.filter (fun it => decide (effText it ≠ "")) = [] := by
      rw [List.filter_eq_nil_iff]
      intro it hit
      simp [hmid it hit]
    unfold keptPairs
    rw [List.filter_append, List.filter_append, hfil, List.append_nil,
      ← List.filter_append]
  · intro sentences hall
    rw [hmain]
    have hfil : sentences.filter (fun it => decide (effText it ≠ "")) = [] := by
      rw [List.filter_eq_nil_iff]
      intro it hit
      simp [hall it hit]
    unfold spec_transcript keptPairs
    rw [hfil]
    rfl

/-- **C9** (witness): an all-empty-text input produces the empty
transcript. -/
theorem c9_witness :
    process_transcript [⟨some "A", none⟩, ⟨some "B", some ""⟩] = "" :=
  c9_process_transcript_spec.2.2 [⟨some "A", none⟩, ⟨some "B", some ""⟩] (by decide)

/-! ## people.py: the output shape of `get_contacts_for_owner`
(lines 69-81) -/

theorem dropWhile_head_not {α : Type} (p : α → Bool) :
    ∀ (l : List α) (a : α), (l.dropWhile p).head? = some a → p a = false
  | [], a, h => by simp [List.dropWhile] at h
  | b :: t, a, h => by
    by_cases hb : p b = true
    · rw [List.dropWhile_cons, if_pos hb] at h
      exact dropWhile_head_not p t a h
    · rw [List.dropWhile_cons, if_neg hb] at h
      rw [List.head?_cons] at h
      cases h
      exact Bool.eq_false_iff.mpr hb

theorem getLast?_dropWhile {α : Type} (p : α → Bool) :
    ∀ l : List α, l.dropWhile p ≠ [] → (l.dropWhile p).getLast? = l.getLast?
  | [], h => absurd rfl h
  | b :: t, h => by
    by_cases hb : p b = true
    · rw [List.dropWhile_cons, if_pos hb] at h ⊢
      rw [getLast?_dropWhile p t h]
      have ht : t ≠ [] := by
        intro he
        rw [he] at h
        simp [List.dropWhile] at h
      cases t with
      | nil => exact absurd rfl ht
      | cons c t2 => rw [List.getLast?_cons_cons]
    · rw [List.dropWhile_cons, if_neg hb]

theorem dropWhile_eq_self_of_head {α : Type} (p : α → Bool) (l : List α)
    (h : ∀ a, l.head? = some a → p a = false) : l.dropWhile p = l := by
  cases l with
  | nil => rfl
  | cons b t =>
    have hb : p b = false := h b rfl
    rw [List.dropWhile_cons, hb]
    simp

theorem stripList_head (l : List Char) (c : Char)
    (h : (stripList l).head? = some c) : c.isWhitespace = false := by
  unfold stripList at h
  rw [List.head?_reverse] at h
  have hne : (l.dropWhile Char.isWhitespace).reverse.dropWhile Char.isWhitespace ≠ [] := by
    intro he
    rw [he] at h
    simp at h
  rw [getLast?_dropWhile _ _ hne, List.getLast?_reverse] at h
  exact dropWhile_head_not _ _ c h

theorem stripList_getLast (l : List Char) (c : Char)
    (h : (stripList l).getLast? = some c) : c.isWhitespace = false := by
  unfold stripList at h
  rw [List.getLast?_reverse] at h
  exact dropWhile_head_not _ _ c h

theorem stripList_idem (l : List Char) : stripList (stripList l) = stripList l := by
  have h1 : (stripList l).dropWhile Char.isWhitespace = stripList l :=
    dropWhile_eq_self_of_head _ _ (fun a ha => stripList_head l a ha)
  have h2 : (stripList l).reverse.dropWhile Char.isWhitespace = (stripList l).reverse :=
    dropWhile_eq_self_of_head _ _ (fun a ha => by
      rw [List.head?_reverse] at ha
      exact stripList_getLast l a ha)
  calc stripList (stripList l)
      = (((stripList l).dropWhile Char.isWhitespace).reverse.dropWhile
          Char.isWhitespace).reverse := rfl
    _ = stripList l := by rw [h1, h2, List.reverse_reverse]

theorem head_not_ws_append (u rest2 : List Char) (hu : u ≠ [])
    (hhead : ∀ c, u.head? = some c → c.isWhitespace = false) :
    (u ++ rest2).dropWhile Char.isWhitespace = u ++ rest2 := by
  cases u with
  | nil => exact absurd rfl hu
  | cons c t =>
    apply dropWhile_eq_self_of_head
    intro a ha
    rw [List.cons_append, List.head?_cons] at ha
    cases ha
    exact hhead c rfl

theorem stripList_join_stripped (a b : List Char)
    (ha : stripList a ≠ []) (hb : stripList b ≠ []) :
    stripList (stripList a ++ ' ' :: stripList b) =
      stripList a ++ ' ' :: stripList b := by
  have hahead : ∀ c, (stripList a).head? = some c → c.isWhitespace = false :=
    fun c hc => stripList_head a c hc
  have hblast : ∀ c, (stripList b).reverse.head? = some c → c.isWhitespace = false :=
    fun c hc => stripList_getLast b c (by rw [List.getLast?_eq_head?_reverse]; exact hc)
  set u := stripList a with hu
  set v := stripList b with hv
  have step1 : (u ++ ' ' :: v).dropWhile Char.isWhitespace = u ++ ' ' :: v :=
    head_not_ws_append u (' ' :: v) ha hahead
  have hvrev : v.reverse ≠ [] := by
    intro he
    exact hb (by simpa using congrArg List.reverse he)
  have step2 : (u ++ ' ' :: v).reverse.dropWhile Char.isWhitespace =
      (u ++ ' ' :: v).reverse := by
    rw [List.reverse_append, List.reverse_cons, List.append_assoc]
    exact head_not_ws_append v.reverse ([' '] ++ u.reverse) hvrev hblast
  calc stripList (u ++ ' ' :: v)
      = (((u ++ ' ' :: v).dropWhile Char.isWhitespace).reverse.dropWhile
          Char.isWhitespace).reverse := rfl
    _ = u ++ ' ' :: v := by rw [step1, step2, List.reverse_reverse]

theorem pyStrip_idem (s : String) : pyStrip (pyStrip s) = pyStrip s :=
  congrArg String.mk (stripList_idem s.data)

theorem pyStrip_ne_empty_iff (s : String) : pyStrip s ≠ "" ↔ stripList s.data ≠ [] := by
  rw [not_iff_not]
  exact String.ext_iff

theorem pyStrip_join_stripped (f l : String) (hf : pyStrip f ≠ "")
    (hl : pyStrip l ≠ "") :
    pyStrip (pyStrip f ++ " " ++ pyStrip l) = pyStrip f ++ " " ++ pyStrip l := by
  have hdata : (pyStrip f ++ " " ++ pyStrip l).data =
      stripList f.data ++ ' ' :: stripList l.data := by
    show (stripList f.data ++ [' ']) ++ stripList l.data = _
    rw [List.append_assoc]
    rfl
  apply String.ext
  show stripList (pyStrip f ++ " " ++ pyStrip l).data = _
  rw [hdata]
  exact stripList_join_stripped f.data l.data
    ((pyStrip_ne_empty_iff f).mp hf) ((pyStrip_ne_empty_iff l).mp hl)

/-- A HubSpot property value as it appears in the parsed JSON response:
a string or JSON null. -/
inductive PVal where
  | str (s : String)
  | null
deriving DecidableEq

/-- The `"properties"` entry of a parsed contact: absent, JSON null, or a
dict of property values. -/
inductive PropsVal where
  | absent
  | null
  | dict (ps : List (String × PVal))
deriving DecidableEq

/-- The `"id"` of a parsed contact (people.py line 71 applies `str()` to
it): an integer or a string. -/
inductive IdVal where
  | int (n : Int)
  | str (s : String)
deriving DecidableEq

/-- Python `str(id)`. -/
def idStr : IdVal → String
  | .int n => toString n
  | .str s => s

/-- A parsed contact from the search response.  The `id` key is present
(people.py line 71 subscripts it unconditionally on API data). -/
structure Contact where
  id : IdVal
  properties : PropsVal
deriving DecidableEq

/-- Dict lookup on a properties dict. -/
def lookupProp : List (String × PVal) → String → Option PVal
  | [], _ => none
  | (k, v) :: rest, q => if k = q then some v else lookupProp rest q

/-- `c.get("properties", {}).get(key, "")` on the name path (people.py
lines 74-76), which is immediately followed by `.strip()`: a `null`
properties value or a `null` property raises `AttributeError` there
(`None` has no `.get`, resp. no `.strip`); an absent key defaults to
`""`. -/
def pyNameProp (props : PropsVal) (k : String) : Except String String :=
  match props with
  | .null => .error "AttributeError: NoneType object has no attribute get"
  | .absent => .ok ""
  | .dict ps =>
    match lookupProp ps k with
    | none => .ok ""
    | some (.str s) => .ok s
    | some .null => .error "AttributeError: NoneType object has no attribute strip"

/-- The `name` expression of people.py lines 72-77:
`" ".join(filter(None, [first.strip(), last.strip()])).strip()
 or "(no name)"`. -/
def codeName (f l : String) : String :=
  let parts := [pyStrip f, pyStrip l].filter (fun s => decide (s ≠ ""))
  let joined := pyStrip (joinSpace parts)
  if joined = "" then "(no name)" else joined

/-- The `email` expression of people.py line 78:
`(c.get("properties", {}) or {}).get("email", "") or ""` — absent or null
properties, an absent or null email, and an empty email all yield `""`. -/
def emailOf (c : Contact) : String :=
  match c.properties with
  | .dict ps =>
    match lookupProp ps "email" with
    | some (.str s) => s
    | _ => ""
  | _ => ""

/-- The output record built for one contact: a dict with exactly the keys
`hubspot_id`, `name` and `email` (people.py lines 70-79). -/
structure OutContact where
  hubspot_id : String
  name : String
  email : String
deriving DecidableEq

/-- True when the name computation of the contact raises no
`AttributeError` (string-or-absent name properties, non-null properties). -/
def contactNameOK (c : Contact) : Bool :=
  match pyNameProp c.properties "firstname", pyNameProp c.properties "lastname" with
  | .ok _, .ok _ => true
  | _, _ => false

/-- Building the output dict of one contact (the body of the list
comprehension, people.py lines 70-79); an `AttributeError` propagates. -/
def contact_out (c : Contact) : Except String OutContact :=
  match pyNameProp c.properties "firstname" with
  | .error e => .error e
  | .ok f =>
    match pyNameProp c.properties "lastname" with
    | .error e => .error e
    | .ok l => .ok ⟨idStr c.id, codeName f l, emailOf c⟩

/-- The final list comprehension of `get_contacts_for_owner` (people.py
lines 69-81) over the fetched contacts, in fetch order; the first raised
exception propagates. -/
def get_contacts_output : List Contact → Except String (List OutContact)
  | [] => .ok []
  | c :: cs =>
    match contact_out c with
    | .error e => .error e
    | .ok o =>
      match get_contacts_output cs with
      | .error e => .error e
      | .ok os => .ok (o :: os)

/-- Claim side: the raw first/last name string of a contact (`""` when the
property is missing, null, or properties are absent/null). -/
def rawNameProp (props : PropsVal) (k : String) : String :=
  match props with
  | .dict ps =>
    match lookupProp ps k with
    | some (.str s) => s
    | _ => ""
  | _ => ""

/-- Claim side: "the stripped concatenation of first and last name, or the
literal `(no name)` when both are empty or missing". -/
def claimName (f l : String) : String :=
  if pyStrip f = "" then (if pyStrip l = "" then "(no name)" else pyStrip l)
  else if pyStrip l = "" then pyStrip f
  else pyStrip f ++ " " ++ pyStrip l

/-- Claim side: "the email property, or the empty string when it is
missing or null". -/
def claimEmail (c : Contact) : String :=
  match c.properties with
  | .dict ps =>
    match lookupProp ps "email" with
    | some (.str s) => s
    | _ => ""
  | _ => ""

/-- Claim side: the predicted output record of one contact. -/
def claimContact (c : Contact) : OutContact :=
  ⟨idStr c.id,
    claimName (rawNameProp c.properties "firstname") (rawNameProp c.properties "lastname"),
    claimEmail c⟩

theorem codeName_eq_claimName (f l : String) : codeName f l = claimName f l := by
  by_cases hf : pyStrip f = ""
  · by_cases hl : pyStrip l = ""
    · have hfil : [pyStrip f, pyStrip l].filter (fun s => decide (s ≠ "")) = [] := by
        rw [hf, hl]
        rfl
      have hcode : codeName f l = "(no name)" := by
        unfold codeName
        rw [hfil]
        rfl
      rw [hcode]
      unfold claimName
      rw [if_pos hf, if_pos hl]
    · have hfil : [pyStrip f, pyStrip l].filter (fun s => decide (s ≠ "")) =
          [pyStrip l] := by
        rw [hf]
        simp [List.filter_cons, hl]
      have hcode : codeName f l = pyStrip l := by
        unfold codeName
        rw [hfil]
        show (if pyStrip (joinSpace [pyStrip l]) = "" then "(no name)"
          else pyStrip (joinSpace [pyStrip l])) = _
        have hj : joinSpace [pyStrip l] = pyStrip l := rfl
        rw [hj, pyStrip_idem, if_neg hl]
      rw [hcode]
      unfold claimName
      rw [if_pos hf, if_neg hl]
  · by_cases hl : pyStrip l = ""
    · have hfil : [pyStrip f, pyStrip l].filter (fun s => decide (s ≠ "")) =
          [pyStrip f] := by
        rw [hl]
        simp [List.filter_cons, hf]
      have hcode : codeName f l = pyStrip f := by
        unfold codeName
        rw [hfil]
        show (if pyStrip (joinSpace [pyStrip f]) = "" then "(no name)"
          else pyStrip (joinSpace [pyStrip f])) = _
        have hj : joinSpace [pyStrip f] = pyStrip f := rfl
        rw [hj, pyStrip_idem, if_neg hf]
      rw [hcode]
      unfold claimName
      rw [if_neg hf, if_pos hl]
    · have hfil : [pyStrip f, pyStrip l].filter (fun s => decide (s ≠ "")) =
          [pyStrip f, pyStrip l] := by
        simp [List.filter_cons, hf, hl]
      have hne : pyStrip f ++ " " ++ pyStrip l ≠ "" := by
        intro he
        have hd : (stripList f.data ++ [' ']) ++ stripList l.data = [] :=
          congrArg String.data he
        simp at hd
      have hcode : codeName f l = pyStrip f ++ " " ++ pyStrip l := by
        unfold codeName
        rw [hfil]
        show (if pyStrip (joinSpace [pyStrip f, pyStrip l]) = "" then "(no name)"
          else pyStrip (joinSpace [pyStrip f, pyStrip l])) = _
        have hj : joinSpace [pyStrip f, pyStrip l] = pyStrip f ++ " " ++ pyStrip l := rfl
        rw [hj, pyStrip_join_stripped f l hf hl, if_neg hne]
      rw [hcode]
      unfold claimName
      rw [if_neg hf, if_neg hl]

theorem contact_out_ok (c : Contact) (h : contactNameOK c = true) :
    contact_out c = .ok (claimContact c) := by
  unfold contactNameOK at h
  unfold contact_out claimContact
  cases hp : c.properties with
  | null => rw [hp] at h; simp [pyNameProp] at h
  | absent =>
    show Except.ok (OutContact.mk (idStr c.id) (codeName "" "") (emailOf c)) =
      Except.ok (OutContact.mk (idStr c.id) (claimName "" "") (claimEmail c))
    rw [codeName_eq_claimName]
    rfl
  | dict ps =>
    rw [hp] at h
    cases hf : lookupProp ps "firstname" with
    | none =>
      cases hl : lookupProp ps "lastname" with
      | none =>
        simp only [pyNameProp, rawNameProp, hf, hl]
        rw [codeName_eq_claimName]
        rfl
      | some v =>
        cases v with
        | str s =>
          simp only [pyNameProp, rawNameProp, hf, hl]
          rw [codeName_eq_claimName]
          rfl
        | null => simp [pyNameProp, hf, hl] at h
    | some v =>
      cases v with
      | str s =>
        cases hl : lookupProp ps "lastname" with
        | none =>
          simp only [pyNameProp, rawNameProp, hf, hl]
          rw [codeName_eq_claimName]
          rfl
        | some v2 =>
          cases v2 with
          | str s2 =>
            simp only [pyNameProp, rawNameProp, hf, hl]
            rw [codeName_eq_claimName]
            rfl
          | null => simp [pyNameProp, hf, hl] at h
      | null => simp [pyNameProp, hf] at h

/-- **C10**.  When no contact raises an `AttributeError` in the name
computation, `get_contacts_for_owner`'s output mapping succeeds and equals,
element by element in fetch order, the claim's description: one record per
fetched contact with exactly the keys `hubspot_id` (the contact id
converted to a string), `name` (the stripped concatenation of first and
last name, or `"(no name)"` when both strip to empty), and `email` (the
email property, or `""` when it is missing or null). -/
theorem c10_contacts_shape (cs : List Contact)
    (h : ∀ c ∈ cs, contactNameOK c = true) :
    get_contacts_output cs = .ok (cs.map claimContact) := by
  induction cs with
  | nil => rfl
  | cons c rest ih =>
    have hc := contact_out_ok c (h c (List.mem_cons_self c rest))
    have hrest := ih fun x hx => h x (List.mem_cons_of_mem c hx)
    rw [List.map_cons, get_contacts_output, hc, hrest]

/-- **C10** (witness): two concrete contacts — one with a padded first
name, a null email and an integer id, one with no properties dict. -/
theorem c10_witness :
    get_contacts_output
        [⟨.int 7, .dict [("firstname", .str " Ada "), ("email", .null)]⟩,
          ⟨.str "x9", .absent⟩] =
      .ok (List.map claimContact
        [⟨.int 7, .dict [("firstname", .str " Ada "), ("email", .null)]⟩,
          ⟨.str "x9", .absent⟩]) :=
  c10_contacts_shape
    [⟨.int 7, .dict [("firstname", .str " Ada "), ("email", .null)]⟩,
      ⟨.str "x9", .absent⟩] (by decide)
